import Mathlib

/-!
Shallow embedding of the HCI command layer of the `bluetooth-hci` library
(files `HciCmd.ts`, `HciLe.ts` and the standalone `Hci` class), together with
theorems about opcode construction, command-packet framing, the
single-pending-command dispatcher, completion matching, and the LE extended
scanning / advertising encoders.

Buffers are modelled as `List Nat` of byte values; `Buffer.writeUIntLE`
becomes little-endian byte expansion, JavaScript numbers used as byte/word
values become `Nat` (all the modelled code paths stay within the exact-integer
range of IEEE doubles).
-/

namespace BtHci

/-- `Buffer.writeUIntLE value offset byteLength`: the `byteLength` bytes of
`value`, least significant first. -/
def writeUIntLE (value byteLength : Nat) : List Nat :=
  (List.range byteLength).map fun i => value / 256 ^ i % 256

/-- `Buffer.readUInt16LE(0)`: the 16-bit little-endian value at the start of
the buffer. -/
def readUInt16LE (bytes : List Nat) : Nat :=
  bytes.getD 0 0 + 256 * bytes.getD 1 0

namespace HciOpcode

/-- `HciOpcode.build` from `HciCmd.ts` (also duplicated in the standalone
`Hci` class): `return opcode.ogf << 10 | opcode.ocf;`. -/
def build (ogf ocf : Nat) : Nat :=
  ogf <<< 10 ||| ocf

/-- `HciOpcode.expand`: `ogf = opcode >> 10; ocf = opcode & 1023`. -/
def expand (opcode : Nat) : Nat × Nat :=
  (opcode >>> 10, opcode &&& 1023)

end HciOpcode

/-- The `Command` interface of `HciCmd.ts`: opcode, optional connection
handle, optional payload. -/
structure Command where
  opcode : Nat
  connHandle : Option Nat := none
  payload : Option (List Nat) := none
deriving DecidableEq

/-- The `HciCmdResult` interface: fields of a parsed `CommandComplete`
event handed to the dispatcher. -/
structure HciCmdResult where
  numHciPackets : Nat
  opcode : Nat
  status : Nat
  returnParameters : Option (List Nat) := none
deriving DecidableEq

/-- `HciCmd.buildCommand`: 2-byte little-endian opcode, 1-byte payload
length, then the payload (`Hci.buildBuffer` in the standalone class is
byte-for-byte the same). -/
def buildCommand (cmd : Command) : List Nat :=
  let payloadLength := (cmd.payload.map List.length).getD 0
  writeUIntLE cmd.opcode 2 ++ writeUIntLE payloadLength 1 ++ cmd.payload.getD []

/-- What the closure installed in `this.onResult` decides for one incoming
`HciCmdResult`: fall through (leaving the slot occupied), resolve the
promise, or reject it with a controller error code. -/
inductive CmdOutcome where
  | ignore
  | resolve (evt : HciCmdResult)
  | rejectHci (code : Nat)
deriving DecidableEq

/-- The body of the `this.onResult` closure in `HciCmd.sendWaitResult`:
opcode match, then (when a connection handle was registered) presence and
length of the return parameters and the embedded handle, then status
classification (`0` = success resolves, anything else rejects with a
controller error carrying the status byte). -/
def onResultFn (cmd : Command) (evt : HciCmdResult) : CmdOutcome :=
  if cmd.opcode ≠ evt.opcode then
    .ignore
  else
    match cmd.connHandle with
    | none =>
      if evt.status ≠ 0 then .rejectHci evt.status else .resolve evt
    | some connHandle =>
      match evt.returnParameters with
      | none => .ignore
      | some rp =>
        if rp.length < 2 then .ignore
        else if connHandle ≠ readUInt16LE rp then .ignore
        else if evt.status ≠ 0 then .rejectHci evt.status else .resolve evt

/-- Dispatcher state: `this.onResult` is either `null` (idle) or holds the
closure over the pending command; the closure's captured data is the
command itself. -/
structure HciCmdState where
  pending : Option Command
deriving DecidableEq

/-- Outcome of one `sendWaitResult` call at submission time. -/
inductive SubmitResult where
  | busy
  | sent (packet : List Nat)
deriving DecidableEq

/-- Submission path of `HciCmd.sendWaitResult`: while `this.onResult` is
non-null, reject with the `Busy` parser error leaving everything untouched;
otherwise install the completion closure and hand the framed packet to the
`send` function.  The third component is what reaches the transport
(`none` when `send` is not invoked). -/
def submit (s : HciCmdState) (cmd : Command) :
    SubmitResult × HciCmdState × Option (List Nat) :=
  match s.pending with
  | some _ => (.busy, s, none)
  | none => (.sent (buildCommand cmd), ⟨some cmd⟩, some (buildCommand cmd))

/-- Observable effect of delivering one `HciCmdResult` via
`HciCmd.onCmdResult`. -/
inductive EventResult where
  | noPending
  | ignored
  | resolved (evt : HciCmdResult)
  | rejected (code : Nat)
deriving DecidableEq

/-- `HciCmd.onCmdResult`: a no-op while idle; otherwise runs the pending
closure, which either falls through or completes (clearing `this.onResult`
before resolving or rejecting). -/
def onCmdResult (s : HciCmdState) (evt : HciCmdResult) :
    EventResult × HciCmdState :=
  match s.pending with
  | none => (.noPending, s)
  | some cmd =>
    match onResultFn cmd evt with
    | .ignore => (.ignored, s)
    | .resolve e => (.resolved e, ⟨none⟩)
    | .rejectHci c => (.rejected c, ⟨none⟩)

/-- One external stimulus to the dispatcher: a caller submitting a command
or the transport delivering a parsed completion event. -/
inductive Act where
  | submit (cmd : Command)
  | deliver (evt : HciCmdResult)

/-- State reached after an interleaved sequence of submissions and event
deliveries. -/
def run (s : HciCmdState) : List Act → HciCmdState
  | [] => s
  | .submit cmd :: rest => run (submit s cmd).2.1 rest
  | .deliver evt :: rest => run (onCmdResult s evt).2 rest

/-- `enum LeScanningPhy` from `HciLe.ts`: `Phy1M = 0x00`, `PhyCoded = 0x02`
(bit positions of the scanning PHY bitmask). -/
def LeScanningPhy.Phy1M : Nat := 0x00

/-- `LeScanningPhy.PhyCoded = 0x02`. -/
def LeScanningPhy.PhyCoded : Nat := 0x02

/-- `enum LeAdvertisingDataOperation` from `HciLe.ts`. -/
inductive LeAdvertisingDataOperation where
  | FragmentIntermediate
  | FragmentFirst
  | FragmentLast
  | Complete
  | Unchanged
deriving DecidableEq

/-- The explicit discriminants of `LeAdvertisingDataOperation`:
`FragmentIntermediate = 0x00`, `FragmentFirst = 0x01`, `FragmentLast = 0x02`,
`Complete = 0x03`, `Unchanged = 0x04`. -/
def LeAdvertisingDataOperation.toNat : LeAdvertisingDataOperation → Nat
  | .FragmentIntermediate => 0x00
  | .FragmentFirst => 0x01
  | .FragmentLast => 0x02
  | .Complete => 0x03
  | .Unchanged => 0x04

/-- `Hci.msToHciValue`: `Math.round(ms / 0.625)`.  `0.625 = 5/8` is exact in
binary floating point and `8·ms/5` is never a half-integer, so for natural
`ms` the float computation equals exact rounding of the rational `8·ms/5`,
which over `Nat` is `⌊(16·ms + 5) / 10⌋`. -/
def msToHciValue (ms : Nat) : Nat :=
  (16 * ms + 5) / 10

/-- `Hci.hciValueToMs` is `val * 0.625 = 5·val/8`, a possibly fractional
number of milliseconds; rounding it to a whole millisecond count
(JavaScript `Math.round`, half-up) over `Nat` is `⌊(5·val + 4) / 8⌋`. -/
def hciValueToMsRounded (val : Nat) : Nat :=
  (5 * val + 4) / 8

/-- Per-PHY entry of the `scanningPhy` options object of
`Hci.leSetExtendedScanParameters`. -/
structure ScanPhyCfg where
  type : Nat
  intervalMs : Nat
  windowMs : Nat
deriving DecidableEq

/-- Payload bytes contributed by one optional per-PHY field (nothing when
the PHY was not selected). -/
def optBytes (o : Option ScanPhyCfg) (f : ScanPhyCfg → List Nat) : List Nat :=
  match o with
  | some cfg => f cfg
  | none => []

/-- `Hci.leSetExtendedScanParameters`: counts the selected PHYs, builds the
scanning-PHY bitmask, rejects an empty selection with
`InvalidCommandParameter` (modelled as `none`), then writes own address
type, filter policy and bitmask followed by the per-PHY sub-fields in
grouped order — both scan types, then both intervals, then both windows —
testing `Phy1M` before `PhyCoded` inside each group. -/
def leSetExtendedScanParameters (ownAddressType scanningFilterPolicy : Nat)
    (phy1M phyCoded : Option ScanPhyCfg) : Option (List Nat) :=
  let count := (if phy1M.isSome then 1 else 0) + (if phyCoded.isSome then 1 else 0)
  let bitmask :=
    (if phy1M.isSome then 1 <<< LeScanningPhy.Phy1M else 0) |||
    (if phyCoded.isSome then 1 <<< LeScanningPhy.PhyCoded else 0)
  if count = 0 then
    none
  else
    some (writeUIntLE ownAddressType 1 ++
      writeUIntLE scanningFilterPolicy 1 ++
      writeUIntLE bitmask 1 ++
      optBytes phy1M (fun cfg => writeUIntLE cfg.type 1) ++
      optBytes phyCoded (fun cfg => writeUIntLE cfg.type 1) ++
      optBytes phy1M (fun cfg => writeUIntLE (msToHciValue cfg.intervalMs) 2) ++
      optBytes phyCoded (fun cfg => writeUIntLE (msToHciValue cfg.intervalMs) 2) ++
      optBytes phy1M (fun cfg => writeUIntLE (msToHciValue cfg.windowMs) 2) ++
      optBytes phyCoded (fun cfg => writeUIntLE (msToHciValue cfg.windowMs) 2))

/-- `Math.round(d / 10)` for natural `d` (ties `d ≡ 5 (mod 10)` land on
exactly representable half-integers, so the float computation is exact
half-up rounding): `⌊(d + 5) / 10⌋`. -/
def durationToTicks (d : Nat) : Nat :=
  (d + 5) / 10

/-- `Math.round(s / 1.28)` read as exact rounding of the rational
`25·s/32`: `⌊(25·s + 16) / 32⌋`. -/
def periodToTicks (s : Nat) : Nat :=
  (25 * s + 16) / 32

/-- `Hci.leSetExtendedScanEnable`: enable flag byte, filter-duplicates
byte, 2-byte duration in 10 ms ticks, 2-byte period in 1.28 s ticks,
with absent duration/period defaulting to `0`. -/
def leSetExtendedScanEnable (enable : Bool) (filterDuplicates : Nat)
    (durationMs periodSec : Option Nat) : List Nat :=
  let duration := durationToTicks (durationMs.getD 0)
  let period := periodToTicks (periodSec.getD 0)
  writeUIntLE (if enable then 1 else 0) 1 ++
  writeUIntLE filterDuplicates 1 ++
  writeUIntLE duration 2 ++
  writeUIntLE period 2

/-- `Hci.leSetExtendedAdvertisingData`: advertising handle, operation byte,
fragment-preference byte (`fragment ? 0 : 1`), data length byte, data. -/
def leSetExtendedAdvertisingData (advertisingHandle operation : Nat)
    (fragment : Bool) (data : List Nat) : List Nat :=
  writeUIntLE advertisingHandle 1 ++
  writeUIntLE operation 1 ++
  writeUIntLE (if fragment then 0 else 1) 1 ++
  writeUIntLE data.length 1 ++
  data

/-- `Hci.leSetExtendedScanResponseData`: identical layout to
`leSetExtendedAdvertisingData` (only the OCF differs). -/
def leSetExtendedScanResponseData (advertisingHandle operation : Nat)
    (fragment : Bool) (data : List Nat) : List Nat :=
  writeUIntLE advertisingHandle 1 ++
  writeUIntLE operation 1 ++
  writeUIntLE (if fragment then 0 else 1) 1 ++
  writeUIntLE data.length 1 ++
  data

/-! ### Helper lemmas -/

theorem writeUIntLE_one (v : Nat) : writeUIntLE v 1 = [v % 256] := by
  simp [writeUIntLE, List.range_succ]

theorem writeUIntLE_two (v : Nat) : writeUIntLE v 2 = [v % 256, v / 256 % 256] := by
  simp [writeUIntLE, List.range_succ]

/-! ### Claims -/

/-- Claim C1: at most one command is pending at any time.  In every
dispatcher state whose slot is occupied — and every state reached by an
interleaved sequence of submissions and deliveries is either idle or has
exactly one occupied slot, `pending` being an `Option` — a further
submission is rejected synchronously with `Busy`, the `send` function is
not invoked for it (no packet reaches the transport), the state is left
unchanged so the subsequent behaviour of every interleaving is as if the
rejected submission never happened, and the already-pending command still
resolves on its completion event. -/
theorem single_pending_busy (s : HciCmdState) (c newCmd : Command)
    (hp : s.pending = some c) :
    submit s newCmd = (.busy, s, none) ∧
    (∀ rest : List Act, run s (.submit newCmd :: rest) = run s rest) ∧
    (∀ evt : HciCmdResult, onResultFn c evt = .resolve evt →
      onCmdResult s evt = (.resolved evt, ⟨none⟩)) := by
  refine ⟨?_, ?_, ?_⟩
  · simp [submit, hp]
  · intro rest
    simp [run, submit, hp]
  · intro evt h
    simp [onCmdResult, hp, h]

/-- Witness for C1: `Reset` (opcode `0x0C03`) pending; a `ReadBdAddr`
(opcode `0x1009`) submission bounces with `Busy` and the `Reset` still
resolves on its completion. -/
theorem single_pending_busy_witness :
    submit ⟨some ⟨0x0C03, none, none⟩⟩ ⟨0x1009, none, none⟩ =
      (.busy, ⟨some ⟨0x0C03, none, none⟩⟩, none) ∧
    onCmdResult ⟨some ⟨0x0C03, none, none⟩⟩ ⟨1, 0x0C03, 0, some []⟩ =
      (.resolved ⟨1, 0x0C03, 0, some []⟩, ⟨none⟩) := by
  have h := single_pending_busy ⟨some ⟨0x0C03, none, none⟩⟩
    ⟨0x0C03, none, none⟩ ⟨0x1009, none, none⟩ rfl
  exact ⟨h.1, h.2.2 _ (by decide)⟩

/-- Counterexample to claim C2 as stated: `HciOpcode.build` performs no
truncation of the OCF, so at `ogf = 8` (LE controller group) and the
out-of-range `ocf = 1024` it returns `0x2400 = 9216`, while
`(ogf <<< 10) ||| (ocf &&& 0x3FF) = 0x2000 = 8192`. -/
theorem build_no_mask_counterexample :
    HciOpcode.build 8 1024 = 9216 ∧
    8 <<< 10 ||| (1024 &&& 0x3FF) = 8192 ∧
    HciOpcode.build 8 1024 ≠ 8 <<< 10 ||| (1024 &&& 0x3FF) := by
  decide

/-- Claim C2 (amended): for every OGF and every OCF in its 10-bit range
(`ocf < 0x400`), the opcode built by `HciOpcode.build` equals
`(ogf <<< 10) ||| (ocf &&& 0x3FF)`; the code itself never masks the OCF,
so the identity holds because the mask is the identity on 10-bit values. -/
theorem build_in_range (ogf ocf : Nat) (h : ocf < 1024) :
    HciOpcode.build ogf ocf = ogf <<< 10 ||| (ocf &&& 0x3FF) := by
  have hmask : ocf &&& 1023 = ocf % 1024 := Nat.and_pow_two_sub_one_eq_mod ocf 10
  have : ocf &&& 0x3FF = ocf := by omega
  rw [HciOpcode.build, this]

/-- Witness for C2 (amended): `Reset = (0x03, 0x0003)` gives `0x0C03`. -/
theorem build_in_range_witness :
    HciOpcode.build 3 3 = 3 <<< 10 ||| (3 &&& 0x3FF) ∧ HciOpcode.build 3 3 = 0x0C03 :=
  ⟨build_in_range 3 3 (by decide), by decide⟩

/-- Claim C3: for a 16-bit opcode and a payload of length `L ≤ 255`, the
packet built by `HciCmd.buildCommand` is exactly `3 + L` bytes — the
little-endian opcode at offsets 0–1, the length byte `L` at offset 2, the
payload from offset 3 — and a command with no payload yields the 3-byte
packet with length byte `0`. -/
theorem buildCommand_layout (opcode : Nat) (ch : Option Nat) (p : List Nat)
    (hop : opcode < 65536) (hlen : p.length ≤ 255) :
    (buildCommand ⟨opcode, ch, some p⟩).length = 3 + p.length ∧
    buildCommand ⟨opcode, ch, some p⟩ =
      [opcode % 256, opcode / 256, p.length] ++ p ∧
    buildCommand ⟨opcode, ch, none⟩ = [opcode % 256, opcode / 256, 0] := by
  have h256 : opcode / 256 % 256 = opcode / 256 := Nat.mod_eq_of_lt (by omega)
  have hplen : p.length % 256 = p.length := Nat.mod_eq_of_lt (by omega)
  refine ⟨?_, ?_, ?_⟩
  · simp [buildCommand, writeUIntLE_one, writeUIntLE_two, h256, hplen]
    omega
  · simp [buildCommand, writeUIntLE_one, writeUIntLE_two, h256, hplen]
  · simp [buildCommand, writeUIntLE_one, writeUIntLE_two, h256, hplen]

/-- Witness for C3: `Reset` framed with a one-byte payload `0xAA`. -/
theorem buildCommand_layout_witness :
    buildCommand ⟨0x0C03, none, some [0xAA]⟩ = [0x03, 0x0C, 1, 0xAA] ∧
    buildCommand ⟨0x0C03, none, none⟩ = [0x03, 0x0C, 0] := by
  have h := buildCommand_layout 0x0C03 none [0xAA] (by decide) (by decide)
  exact ⟨h.2.1, h.2.2⟩

/-- Claim C4: a completion event that matches the pending command — same
opcode and, when a connection handle was registered, return parameters of
at least two bytes whose leading little-endian 16-bit handle equals it —
resolves the call with the event when the status byte is `0x00` and
rejects it with a controller error carrying exactly the status byte
otherwise; in both cases the pending slot is cleared. -/
theorem status_classification (s : HciCmdState) (cmd : Command)
    (evt : HciCmdResult) (hp : s.pending = some cmd)
    (hop : cmd.opcode = evt.opcode)
    (hmatch : cmd.connHandle = none ∨
      ∃ h rp, cmd.connHandle = some h ∧ evt.returnParameters = some rp ∧
        2 ≤ rp.length ∧ readUInt16LE rp = h) :
    (evt.status = 0 → onCmdResult s evt = (.resolved evt, ⟨none⟩)) ∧
    (evt.status ≠ 0 → onCmdResult s evt = (.rejected evt.status, ⟨none⟩)) := by
  rcases hmatch with hch | ⟨h, rp, hch, hrp, hlen, hhandle⟩
  · constructor <;> intro hst <;>
      simp [onCmdResult, onResultFn, hp, hop, hch, hst]
  · have hnl : ¬ rp.length < 2 := by omega
    constructor <;> intro hst <;>
      simp [onCmdResult, onResultFn, hp, hop, hch, hrp, hnl, hhandle, hst]

/-- Witness for C4: a `Reset` completion with status `0x0C`
(`CommandDisallowed`) rejects with code `0x0C` and clears the slot. -/
theorem status_classification_witness :
    onCmdResult ⟨some ⟨0x0C03, none, none⟩⟩ ⟨1, 0x0C03, 0x0C, some []⟩ =
      (.rejected 0x0C, ⟨none⟩) := by
  have h := status_classification ⟨some ⟨0x0C03, none, none⟩⟩
    ⟨0x0C03, none, none⟩ ⟨1, 0x0C03, 0x0C, some []⟩ rfl rfl (Or.inl rfl)
  exact h.2 (by decide)

/-- Claim C5: a delivered `CommandComplete` whose opcode differs from the
pending command's opcode neither resolves nor rejects the call; the event
is discarded and the slot stays occupied. -/
theorem opcode_mismatch_ignored (s : HciCmdState) (cmd : Command)
    (evt : HciCmdResult) (hp : s.pending = some cmd)
    (hop : cmd.opcode ≠ evt.opcode) :
    onCmdResult s evt = (.ignored, s) := by
  simp [onCmdResult, onResultFn, hp, hop]

/-- Witness for C5: a completion for `ReadBdAddr` while `Reset` is
pending is discarded. -/
theorem opcode_mismatch_ignored_witness :
    onCmdResult ⟨some ⟨0x0C03, none, none⟩⟩ ⟨1, 0x1009, 0, some []⟩ =
      (.ignored, ⟨some ⟨0x0C03, none, none⟩⟩) :=
  opcode_mismatch_ignored ⟨some ⟨0x0C03, none, none⟩⟩ ⟨0x0C03, none, none⟩
    ⟨1, 0x1009, 0, some []⟩ rfl (by decide)

/-- Claim C6: with a registered connection handle, a matching-opcode
completion whose return parameters (at least two bytes long) start with a
different little-endian 16-bit handle is discarded and the call stays
pending; one starting with the registered handle resolves on status
`0x00` and rejects with the status byte otherwise. -/
theorem handle_demux (s : HciCmdState) (cmd : Command) (h : Nat)
    (evt : HciCmdResult) (rp : List Nat) (hp : s.pending = some cmd)
    (hch : cmd.connHandle = some h) (hop : cmd.opcode = evt.opcode)
    (hrp : evt.returnParameters = some rp) (hlen : 2 ≤ rp.length) :
    (readUInt16LE rp ≠ h → onCmdResult s evt = (.ignored, s)) ∧
    (readUInt16LE rp = h →
      (evt.status = 0 → onCmdResult s evt = (.resolved evt, ⟨none⟩)) ∧
      (evt.status ≠ 0 → onCmdResult s evt = (.rejected evt.status, ⟨none⟩))) := by
  have hnl : ¬ rp.length < 2 := by omega
  constructor
  · intro hne
    have hne2 : h ≠ readUInt16LE rp := fun hx => hne hx.symm
    simp [onCmdResult, onResultFn, hp, hop, hch, hrp, hnl, hne2]
  · intro heq
    constructor <;> intro hst <;>
      simp [onCmdResult, onResultFn, hp, hop, hch, hrp, hnl, heq, hst]

/-- Witness for C6: `LeReadChannelMap` (opcode `0x2015`) pending for
handle `0x000A`; a completion whose return parameters start `0B 00` is
ignored, one starting `0A 00` resolves. -/
theorem handle_demux_witness :
    onCmdResult ⟨some ⟨0x2015, some 0x000A, none⟩⟩
        ⟨1, 0x2015, 0, some [0x0B, 0x00, 0, 0, 0, 0, 0]⟩ =
      (.ignored, ⟨some ⟨0x2015, some 0x000A, none⟩⟩) ∧
    onCmdResult ⟨some ⟨0x2015, some 0x000A, none⟩⟩
        ⟨1, 0x2015, 0, some [0x0A, 0x00, 0, 0, 0, 0, 0]⟩ =
      (.resolved ⟨1, 0x2015, 0, some [0x0A, 0x00, 0, 0, 0, 0, 0]⟩, ⟨none⟩) := by
  have h1 := handle_demux ⟨some ⟨0x2015, some 0x000A, none⟩⟩
    ⟨0x2015, some 0x000A, none⟩ 0x000A ⟨1, 0x2015, 0, some [0x0B, 0x00, 0, 0, 0, 0, 0]⟩
    [0x0B, 0x00, 0, 0, 0, 0, 0] rfl rfl rfl rfl (by decide)
  have h2 := handle_demux ⟨some ⟨0x2015, some 0x000A, none⟩⟩
    ⟨0x2015, some 0x000A, none⟩ 0x000A ⟨1, 0x2015, 0, some [0x0A, 0x00, 0, 0, 0, 0, 0]⟩
    [0x0A, 0x00, 0, 0, 0, 0, 0] rfl rfl rfl rfl (by decide)
  exact ⟨h1.1 (by decide), (h2.2 (by decide)).1 rfl⟩

/-- Claim C7: `leSetExtendedScanParameters` encodes, for each non-empty
selection of the PHYs {1M, Coded}, exactly `3 + N·5` bytes — own address
type, scanning filter policy, PHY bitmask (`1M = bit 0`, `Coded = bit 2`) —
followed by the per-PHY sub-fields grouped: all scan-type bytes, then all
2-byte intervals, then all 2-byte windows, the 1M value before the Coded
value inside each group. -/
theorem extscan_grouped_order (oat sfp : Nat) (c1 cc : ScanPhyCfg) :
    leSetExtendedScanParameters oat sfp (some c1) (some cc) =
      some ([oat % 256, sfp % 256, 5, c1.type % 256, cc.type % 256] ++
        (writeUIntLE (msToHciValue c1.intervalMs) 2 ++
          writeUIntLE (msToHciValue cc.intervalMs) 2) ++
        (writeUIntLE (msToHciValue c1.windowMs) 2 ++
          writeUIntLE (msToHciValue cc.windowMs) 2)) ∧
    leSetExtendedScanParameters oat sfp (some c1) none =
      some ([oat % 256, sfp % 256, 1, c1.type % 256] ++
        writeUIntLE (msToHciValue c1.intervalMs) 2 ++
        writeUIntLE (msToHciValue c1.windowMs) 2) ∧
    leSetExtendedScanParameters oat sfp none (some cc) =
      some ([oat % 256, sfp % 256, 4, cc.type % 256] ++
        writeUIntLE (msToHciValue cc.intervalMs) 2 ++
        writeUIntLE (msToHciValue cc.windowMs) 2) ∧
    (leSetExtendedScanParameters oat sfp (some c1) (some cc)).map List.length =
      some (3 + 2 * 5) ∧
    (leSetExtendedScanParameters oat sfp (some c1) none).map List.length =
      some (3 + 1 * 5) ∧
    (leSetExtendedScanParameters oat sfp none (some cc)).map List.length =
      some (3 + 1 * 5) := by
  refine ⟨?_, ?_, ?_, ?_, ?_, ?_⟩ <;>
    simp [leSetExtendedScanParameters, optBytes, writeUIntLE_one, writeUIntLE_two,
      LeScanningPhy.Phy1M, LeScanningPhy.PhyCoded]

/-- Claim C8: `msToHciValue` is exact rounding of `ms / 0.625` (its result
is the integer nearest to `8·ms/5`, witnessed by `|5·ticks − 8·ms| ≤ 2`),
`durationToTicks` is exact rounding of `ms / 10`, and `periodToTicks` is
the number of 1.28-second ticks nearest to the requested period
(`|32·ticks − 25·s| ≤ 16`, i.e. within half a tick); the 10 ms duration
ticks and 1.28 s period ticks are exactly what the two 2-byte fields of
the `leSetExtendedScanEnable` payload carry (read back little-endian from
offsets 2 and 4).  For every interval `m ∈ [20, 10240]` ms the tick value
multiplied by `0.625` rounds back to `m`, while the boundary-implied
range `32 ≤ ticks ≤ 16384` fits the 16-bit (and a fortiori the 24-bit)
interval fields. -/
theorem time_unit_roundtrip (m : Nat) (hlo : 20 ≤ m) (hhi : m ≤ 10240) :
    hciValueToMsRounded (msToHciValue m) = m ∧
    32 ≤ msToHciValue m ∧ msToHciValue m ≤ 16384 ∧ msToHciValue m < 2 ^ 16 ∧
    5 * msToHciValue m ≤ 8 * m + 2 ∧ 8 * m ≤ 5 * msToHciValue m + 2 ∧
    msToHciValue 20 = 32 ∧ msToHciValue 10240 = 16384 ∧
    (∀ d, 10 * durationToTicks d ≤ d + 5 ∧ d ≤ 10 * durationToTicks d + 4) ∧
    (∀ p, 32 * periodToTicks p ≤ 25 * p + 16 ∧
      25 * p ≤ 32 * periodToTicks p + 15) ∧
    (∀ (e : Bool) (fd d p : Nat),
      durationToTicks d < 65536 → periodToTicks p < 65536 →
      readUInt16LE ((leSetExtendedScanEnable e fd (some d) (some p)).drop 2) =
        durationToTicks d ∧
      readUInt16LE ((leSetExtendedScanEnable e fd (some d) (some p)).drop 4) =
        periodToTicks p) := by
  have hval : msToHciValue m = (16 * m + 5) / 10 := rfl
  have hback : ∀ v, hciValueToMsRounded v = (5 * v + 4) / 8 := fun _ => rfl
  have hpow : (2 : Nat) ^ 16 = 65536 := by norm_num
  refine ⟨?_, ?_, ?_, ?_, ?_, ?_, by decide, by decide, ?_, ?_, ?_⟩
  · rw [hval, hback]; omega
  · omega
  · omega
  · omega
  · omega
  · omega
  · intro d
    have hd : durationToTicks d = (d + 5) / 10 := rfl
    omega
  · intro p
    have hp : periodToTicks p = (25 * p + 16) / 32 := rfl
    omega
  · intro e fd d p hd hp
    constructor <;>
      · simp [leSetExtendedScanEnable, writeUIntLE_one, writeUIntLE_two,
          readUInt16LE]
        omega

/-- Witness for C8: the round-trip and field-width bound at the upper
boundary `m = 10240`, and the period field of a concrete
`leSetExtendedScanEnable` payload carrying the 1.28-second tick count of
a 64-second period. -/
theorem time_unit_roundtrip_witness :
    hciValueToMsRounded (msToHciValue 10240) = 10240 ∧
    msToHciValue 10240 ≤ 16384 ∧
    readUInt16LE ((leSetExtendedScanEnable true 0 (some 10000) (some 64)).drop 4) =
      periodToTicks 64 := by
  obtain ⟨h1, h2, h3, h4, h5, h6, h7, h8, h9, h10, h11⟩ :=
    time_unit_roundtrip 10240 (by decide) (by decide)
  exact ⟨h1, h3, (h11 true 0 10000 64 (by decide) (by decide)).2⟩

/-- Claim C9: in `leSetExtendedAdvertisingData` and
`leSetExtendedScanResponseData` the fragment-preference byte (offset 2) is
the logical inverse of the boolean — `fragment = false` encodes `1`,
`fragment = true` encodes `0` — and the operation byte (offset 1) is the
operation's discriminant, with `FragmentIntermediate = 0x00`,
`FragmentFirst = 0x01`, `FragmentLast = 0x02`, `Complete = 0x03`,
`Unchanged = 0x04`. -/
theorem fragment_and_operation_bytes (ah : Nat)
    (op : LeAdvertisingDataOperation) (frag : Bool) (data : List Nat) :
    leSetExtendedAdvertisingData ah op.toNat frag data =
      [ah % 256, op.toNat, if frag then 0 else 1, data.length % 256] ++ data ∧
    leSetExtendedScanResponseData ah op.toNat frag data =
      [ah % 256, op.toNat, if frag then 0 else 1, data.length % 256] ++ data ∧
    (leSetExtendedAdvertisingData ah op.toNat false data).get? 2 = some 1 ∧
    (leSetExtendedAdvertisingData ah op.toNat true data).get? 2 = some 0 ∧
    (leSetExtendedScanResponseData ah op.toNat false data).get? 2 = some 1 ∧
    (leSetExtendedScanResponseData ah op.toNat true data).get? 2 = some 0 ∧
    LeAdvertisingDataOperation.toNat .FragmentIntermediate = 0x00 ∧
    LeAdvertisingDataOperation.toNat .FragmentFirst = 0x01 ∧
    LeAdvertisingDataOperation.toNat .FragmentLast = 0x02 ∧
    LeAdvertisingDataOperation.toNat .Complete = 0x03 ∧
    LeAdvertisingDataOperation.toNat .Unchanged = 0x04 := by
  refine ⟨?_, ?_, ?_, ?_, ?_, ?_, rfl, rfl, rfl, rfl, rfl⟩ <;>
    cases op <;> cases frag <;>
      simp [leSetExtendedAdvertisingData, leSetExtendedScanResponseData,
        writeUIntLE_one, LeAdvertisingDataOperation.toNat]

/-- Claim C10: with a registered connection handle, a matching-opcode
completion whose return parameters are absent or shorter than two bytes is
silently discarded regardless of its status byte (the status is never
inspected), so the call neither resolves nor rejects and the slot stays
occupied. -/
theorem short_params_ignored (s : HciCmdState) (cmd : Command) (h : Nat)
    (evt : HciCmdResult) (hp : s.pending = some cmd)
    (hch : cmd.connHandle = some h) (hop : cmd.opcode = evt.opcode)
    (hshort : evt.returnParameters = none ∨
      ∃ rp, evt.returnParameters = some rp ∧ rp.length < 2) :
    onCmdResult s evt = (.ignored, s) := by
  rcases hshort with hrp | ⟨rp, hrp, hlen⟩
  · simp [onCmdResult, onResultFn, hp, hop, hch, hrp]
  · simp [onCmdResult, onResultFn, hp, hop, hch, hrp, hlen]

/-- Witness for C10: a matching completion with non-zero status `0x0C`
but no return parameters leaves the per-connection command pending. -/
theorem short_params_ignored_witness :
    onCmdResult ⟨some ⟨0x2015, some 0x000A, none⟩⟩ ⟨1, 0x2015, 0x0C, none⟩ =
      (.ignored, ⟨some ⟨0x2015, some 0x000A, none⟩⟩) :=
  short_params_ignored ⟨some ⟨0x2015, some 0x000A, none⟩⟩
    ⟨0x2015, some 0x000A, none⟩ 0x000A ⟨1, 0x2015, 0x0C, none⟩
    rfl rfl rfl (Or.inl rfl)

end BtHci
